import Mathlib

/-!
Shallow embedding of the CRM data-quality audit engine
(`DataQualityEngine`, together with its `SIGNAL_REGISTRY` configuration
and the inline `ACTION_TEMPLATES` catalog) and proofs about its scoring,
severity, prioritization and risk-driver logic.

Modelling conventions:
* A CRM property value is an `Option String`; `none` stands for a value
  that is `null`, `undefined`, or absent.  The engine treats those three
  cases and the empty string identically everywhere (`isMissingVal`);
  on string-or-null values JavaScript falsiness coincides with this test.
* JavaScript floating-point percentages are modelled as exact rationals.
* `Math.round` is `jsRound` (round half toward positive infinity).
* `Array.prototype.sort`, a stable sort in JavaScript, is modelled with
  `List.insertionSort`, whose stability Mathlib proves
  (`List.pair_sublist_insertionSort`).
* The only impure ingredient of `runAudit`, the `new Date().toISOString()`
  timestamp, is passed in as an explicit `now : String` parameter.
-/

namespace AuditAgent

/-- Severity tier of a computed signal. -/
inductive Severity
  | low
  | medium
  | high
deriving DecidableEq, Repr

/-- Static criticality tier of a signal, from the registry. -/
inductive Criticality
  | critical
  | high
  | medium
deriving DecidableEq, Repr

/-- Numeric rank of a severity tier (`low < medium < high`), used to
state "at least as bad" comparisons between severities. -/
def sevRank : Severity → ℕ
  | Severity.low => 0
  | Severity.medium => 1
  | Severity.high => 2

/-- One CRM record: a flat mapping from property names to values.
`none` models `null`/`undefined`/absent. -/
structure Record where
  properties : String → Option String

/-- The engine's missing-value test: `val === null || val === undefined
|| val === ""`. -/
def isMissingVal : Option String → Bool
  | none => true
  | some v => decide (v = "")

/-- `calculateMissingPct(records, property)`: percentage of records whose
value for `property` is missing; a null (`none`) or empty collection
yields `0`. -/
def calculateMissingPct (records : Option (List Record)) (property : String) : ℚ :=
  match records with
  | none => 0
  | some rs =>
    if rs.length = 0 then 0
    else
      let missingCount := (rs.filter (fun r => isMissingVal (r.properties property))).length
      ((missingCount : ℚ) / (rs.length : ℚ)) * 100

/-- `getSeverity(pct, criticality)`: the threshold-and-escalation rules,
in source order. -/
def getSeverity (pct : ℚ) (criticality : Criticality) : Severity :=
  if criticality = Criticality.critical ∧ pct > 30 then Severity.high
  else if pct > 30 then Severity.high
  else if pct > 10 then Severity.medium
  else Severity.low

/-- JavaScript `Math.round`: round half toward positive infinity. -/
def jsRound (q : ℚ) : ℤ := ⌊q + 1 / 2⌋

/-- One registry entry of the signal registry. -/
structure SignalConfig where
  id : String
  label : String
  criticality : Criticality
  domain : String
  impacts : List String

/-- `SIGNAL_REGISTRY` from `signalRegistry.js`: the seven audit signals. -/
def SIGNAL_REGISTRY (key : String) : Option SignalConfig :=
  if key = "contacts_missing_email_pct" then some
    { id := "contacts_missing_email_pct"
      label := "Contacts Missing Email"
      criticality := Criticality.high
      domain := "marketing_attribution"
      impacts := ["Cannot identify returning visitors",
                  "Attribution reporting will be incomplete",
                  "Marketing automation emails will fail"] }
  else if key = "contacts_missing_lifecycle_pct" then some
    { id := "contacts_missing_lifecycle_pct"
      label := "Contacts Missing Lifecycle Stage"
      criticality := Criticality.high
      domain := "funnel_visibility"
      impacts := ["Funnel conversion rates cannot be calculated",
                  "Leads may get stuck in limbo without clear ownership",
                  "Marketing cannot segment by buying stage"] }
  else if key = "companies_missing_domain_pct" then some
    { id := "companies_missing_domain_pct"
      label := "Companies Missing Domain Name"
      criticality := Criticality.high
      domain := "data_enrichment"
      impacts := ["Automatic association of contacts to companies will fail",
                  "De-duplication logic is compromised",
                  "Third-party enrichment tools cannot function"] }
  else if key = "companies_missing_industry_pct" then some
    { id := "companies_missing_industry_pct"
      label := "Companies Missing Industry"
      criticality := Criticality.medium
      domain := "segmentation"
      impacts := ["ICP (Ideal Customer Profile) analysis unavailable",
                  "Account segmentation for ABM is impossible",
                  "Strategic reporting by vertical is compromised"] }
  else if key = "deals_missing_close_date_pct" then some
    { id := "deals_missing_close_date_pct"
      label := "Deals Missing Close Date"
      criticality := Criticality.critical
      domain := "revenue_forecasting"
      impacts := ["Forecast accuracy is fundamentally unreliable",
                  "Revenue projections cannot be trusted",
                  "Sales velocity metrics will be incorrect"] }
  else if key = "deals_missing_amount_pct" then some
    { id := "deals_missing_amount_pct"
      label := "Deals Missing Amount"
      criticality := Criticality.critical
      domain := "revenue_forecasting"
      impacts := ["Total pipeline value is underreported",
                  "Win rates by value cannot be calculated",
                  "Rep quota attainment tracking is broken"] }
  else if key = "deals_missing_pipeline_or_stage_pct" then some
    { id := "deals_missing_pipeline_or_stage_pct"
      label := "Deals Missing Pipeline/Stage"
      criticality := Criticality.critical
      domain := "sales_process"
      impacts := ["Deals are invisible in the board view",
                  "Sales process adherence cannot be verified",
                  "Conversion rates between stages are calculable"] }
  else none

/-- A computed `SignalResult`. -/
structure SignalResult where
  key : String
  label : String
  value : ℚ
  severity : Severity
  criticality : Criticality
  impacts : List String
deriving DecidableEq, Repr

/-- The mutable locals of `runAudit` (`signalResults`, `highCount`,
`mediumCount`, `totalPenalty`), threaded explicitly. -/
structure AuditState where
  signalResults : List SignalResult
  highCount : ℕ
  mediumCount : ℕ
  totalPenalty : ℚ

/-- The `processSignal` closure inside `runAudit`: registry lookup
(unknown keys are dropped), severity classification, counter updates,
weighted penalty accumulation, and the `SignalResult` push. -/
def processSignal (st : AuditState) (key : String) (value : ℚ) : AuditState :=
  match SIGNAL_REGISTRY key with
  | none => st
  | some config =>
    let severity := getSeverity value config.criticality
    let penalty : ℚ :=
      if severity = Severity.high then 30
      else if severity = Severity.medium then 15 else 5
    let weight : ℚ := if config.criticality = Criticality.critical then 2 else 1
    { signalResults := st.signalResults ++
        [{ key := key, label := config.label, value := value,
           severity := severity, criticality := config.criticality,
           impacts := config.impacts }]
      highCount := st.highCount + (if severity = Severity.high then 1 else 0)
      mediumCount := st.mediumCount +
        (if severity = Severity.high then 0
         else if severity = Severity.medium then 1 else 0)
      totalPenalty := st.totalPenalty + penalty * weight }

/-- The pipeline-or-stage percentage computed inline in `runAudit`:
percent of deals where `dealstage` or `pipeline` is falsy. -/
def missingStagePct (deals : List Record) : ℚ :=
  if deals.length ≠ 0 then
    ((deals.filter (fun d => isMissingVal (d.properties ("dealstage"))
        || isMissingVal (d.properties ("pipeline")))).length : ℚ)
      / (deals.length : ℚ) * 100
  else 0

/-- The seven (key, value) pairs passed to `processSignal` by
`runAudit`, in source order. -/
def signalInputs (contacts companies deals : List Record) : List (String × ℚ) :=
  [("contacts_missing_email_pct", calculateMissingPct (some contacts) ("email")),
   ("contacts_missing_lifecycle_pct", calculateMissingPct (some contacts) ("lifecyclestage")),
   ("companies_missing_domain_pct", calculateMissingPct (some companies) ("domain")),
   ("companies_missing_industry_pct", calculateMissingPct (some companies) ("industry")),
   ("deals_missing_close_date_pct", calculateMissingPct (some deals) ("closedate")),
   ("deals_missing_amount_pct", calculateMissingPct (some deals) ("amount")),
   ("deals_missing_pipeline_or_stage_pct", missingStagePct deals)]

/-- The seven sequential `processSignal` calls of `runAudit`, written as
a fold over `signalInputs` in source order. -/
def computeSignals (contacts companies deals : List Record) : AuditState :=
  (signalInputs contacts companies deals).foldl
    (fun st kv => processSignal st kv.1 kv.2) ⟨[], 0, 0, 0⟩

/-- Fall-through tail of `derivePrimaryRiskDriver`: the generic
high-severity pick (stable sort descending by value, take the first)
and the final fixed sentence. -/
def riskDriverFallback (signals : List SignalResult) : String :=
  match List.insertionSort (fun a b => b.value ≤ a.value)
      (signals.filter (fun s => decide (s.severity = Severity.high))) with
  | [] => "Data quality is acceptable. Minor improvements recommended."
  | worst :: _ =>
    worst.label ++ ": " ++ toString (jsRound worst.value) ++ "% missing. "
      ++ worst.impacts.headD "" ++ "."

/-- `derivePrimaryRiskDriver(signals)`: the prioritized fallback chain
from the source.  When the critical-and-high set is nonempty but holds
no deal-related signal, control falls through to the generic pick, as in
the source. -/
def derivePrimaryRiskDriver (signals : List SignalResult) : String :=
  let criticalHighSeverity := signals.filter
    (fun s => decide (s.criticality = Criticality.critical ∧ s.severity = Severity.high))
  if criticalHighSeverity.length > 0 then
    let dealSignals := criticalHighSeverity.filter (fun s => s.key.startsWith ("deals_"))
    if dealSignals.length ≥ 2 then
      let avgValue := jsRound ((dealSignals.map (fun s => s.value)).sum / (dealSignals.length : ℚ))
      "Forecast integrity is compromised: " ++ toString avgValue ++
        "% of deals lack critical forecasting fields (close date, amount), making revenue projections unreliable."
    else if dealSignals.length = 1 then
      match dealSignals with
      | s :: _ =>
        s.label ++ ": " ++ toString (jsRound s.value) ++ "% of deals affected. "
          ++ s.impacts.headD "" ++ "."
      | [] => riskDriverFallback signals
    else riskDriverFallback signals
  else riskDriverFallback signals

/-- One remediation template of the inline `ACTION_TEMPLATES` catalog. -/
structure ActionTemplate where
  action : String
  effort : String
  time_to_value_days : ℕ
  domain : String
  owner_role : String
  order_weight : ℤ
deriving DecidableEq, Repr

/-- The inline `ACTION_TEMPLATES` catalog of
`generatePrioritizedActions`. -/
def ACTION_TEMPLATES (key : String) : Option ActionTemplate :=
  if key = "deals_missing_close_date_pct" then some
    { action := "Enforce required Close Date on all deals", effort := "low",
      time_to_value_days := 7, domain := "revenue_forecasting",
      owner_role := "Sales Ops", order_weight := 100 }
  else if key = "deals_missing_amount_pct" then some
    { action := "Enforce required Amount field on all deals", effort := "low",
      time_to_value_days := 7, domain := "revenue_forecasting",
      owner_role := "Sales Ops", order_weight := 99 }
  else if key = "deals_missing_pipeline_or_stage_pct" then some
    { action := "Standardize deal pipeline and stage enforcement", effort := "low",
      time_to_value_days := 7, domain := "sales_process",
      owner_role := "Sales Ops", order_weight := 98 }
  else if key = "contacts_missing_lifecycle_pct" then some
    { action := "Mandate lifecycle stage assignment on contacts", effort := "medium",
      time_to_value_days := 21, domain := "funnel_visibility",
      owner_role := "RevOps", order_weight := 80 }
  else if key = "contacts_missing_email_pct" then some
    { action := "Implement email validation workflow for new contacts", effort := "medium",
      time_to_value_days := 14, domain := "marketing_attribution",
      owner_role := "Marketing Ops", order_weight := 50 }
  else if key = "companies_missing_domain_pct" then some
    { action := "Enable automatic company domain enrichment", effort := "low",
      time_to_value_days := 7, domain := "data_enrichment",
      owner_role := "RevOps", order_weight := 60 }
  else if key = "companies_missing_industry_pct" then some
    { action := "Add industry classification via enrichment or manual process",
      effort := "medium",
      time_to_value_days := 30, domain := "segmentation",
      owner_role := "Marketing Ops", order_weight := 40 }
  else none

/-- JavaScript `String.prototype.replace` with a string pattern: replace
the first occurrence only. -/
def replaceFirst (s pat repl : String) : String :=
  match s.splitOn pat with
  | [] => s
  | [x] => x
  | x :: y :: rest => x ++ repl ++ String.intercalate pat (y :: rest)

/-- One `ActionRecommendation` in the audit output. -/
structure ActionRecommendation where
  priority : ℕ
  action : String
  signal_key : String
  why : String
  effort : String
  time_to_value_days : ℕ
  owner_role : String
  impacts : List String
  criticality : Criticality
  severity : Severity
  tier : String
deriving DecidableEq, Repr

/-- One entry of the intermediate `scoredSignals` array. -/
structure ScoredSignal where
  signal : SignalResult
  template : ActionTemplate
  score : ℤ
deriving DecidableEq, Repr

/-- The filter-map phase of `generatePrioritizedActions`: drop
low-severity signals, attach catalog templates (templateless keys drop
out), and score as `order_weight` plus `10` for high severity. -/
def scoreSignals (signals : List SignalResult) : List ScoredSignal :=
  (signals.filter (fun s => decide (s.severity ≠ Severity.low))).filterMap
    (fun signal =>
      match ACTION_TEMPLATES signal.key with
      | none => none
      | some template => some
        { signal := signal, template := template,
          score := template.order_weight +
            (if signal.severity = Severity.high then 10 else 0) })

/-- The stable descending sort by score,
`scoredSignals.sort((a, b) => b.score - a.score)`. -/
def sortedScoredSignals (signals : List SignalResult) : List ScoredSignal :=
  List.insertionSort (fun a b => b.score ≤ a.score) (scoreSignals signals)

/-- Build one `ActionRecommendation` at a given 1-based priority. -/
def mkAction (priority : ℕ) (ss : ScoredSignal) : ActionRecommendation :=
  { priority := priority
    action := ss.template.action
    signal_key := ss.signal.key
    why := toString (jsRound ss.signal.value) ++ "% of "
      ++ replaceFirst (replaceFirst ss.signal.label.toLower ("missing ") "") (" pct") ""
      ++ " affected. " ++ ss.signal.impacts.headD "" ++ "."
    effort := ss.template.effort
    time_to_value_days := ss.template.time_to_value_days
    owner_role := ss.template.owner_role
    impacts := ss.signal.impacts.take 2
    criticality := ss.signal.criticality
    severity := ss.signal.severity
    tier := if priority ≤ 5 then "primary" else "secondary" }

/-- `generatePrioritizedActions(signals)`: sort, then emit actions with
1-based dense priorities. -/
def generatePrioritizedActions (signals : List SignalResult) : List ActionRecommendation :=
  (sortedScoredSignals signals).enum.map (fun p => mkAction (p.1 + 1) p.2)

/-- The `overall_health` part of the audit output. -/
structure OverallHealth where
  score : ℤ
  severity : Severity
  primary_risk_driver : String
deriving DecidableEq, Repr

/-- The `signals_by_object` presentation grouping. -/
structure SignalsByObject where
  deals : List SignalResult
  companies : List SignalResult
  contacts : List SignalResult
deriving DecidableEq, Repr

/-- The `metadata` part of the audit output. -/
structure AuditMetadata where
  contacts_count : ℕ
  companies_count : ℕ
  deals_count : ℕ
  generated_at : String
deriving DecidableEq, Repr

/-- The full `AuditResult` returned by `runAudit`. -/
structure AuditResult where
  overall_health : OverallHealth
  signals : List SignalResult
  signals_by_object : SignalsByObject
  prioritized_actions : List ActionRecommendation
  metadata : AuditMetadata
deriving DecidableEq, Repr

/-- `groupSignalsByObject(signals)`: partition by key prefix. -/
def groupSignalsByObject (signals : List SignalResult) : SignalsByObject :=
  { deals := signals.filter (fun s => s.key.startsWith ("deals_"))
    companies := signals.filter (fun s => s.key.startsWith ("companies_"))
    contacts := signals.filter (fun s => s.key.startsWith ("contacts_")) }

/-- `runAudit()`: the main entry point.  The generation timestamp is
passed as `now`. -/
def runAudit (contacts companies deals : List Record) (now : String) : AuditResult :=
  let st := computeSignals contacts companies deals
  let score0 : ℚ := 100 - st.totalPenalty
  let score : ℚ :=
    if deals.length = 0 ∨ ∀ s ∈ st.signalResults, s.severity = Severity.high then 0
    else if score0 < 10 then 10
    else score0
  let overallSeverity0 : Severity :=
    if st.highCount ≥ 2 then Severity.high
    else if st.mediumCount ≥ 2 then Severity.medium
    else Severity.low
  let overallSeverity : Severity :=
    if ∃ s ∈ st.signalResults,
        s.criticality = Criticality.critical ∧ s.severity = Severity.high then
      Severity.high
    else overallSeverity0
  { overall_health :=
      { score := jsRound score
        severity := overallSeverity
        primary_risk_driver := derivePrimaryRiskDriver st.signalResults }
    signals := st.signalResults
    signals_by_object := groupSignalsByObject st.signalResults
    prioritized_actions := generatePrioritizedActions st.signalResults
    metadata :=
      { contacts_count := contacts.length
        companies_count := companies.length
        deals_count := deals.length
        generated_at := now } }

/-! Spec-side definitions, written from the specification's words, used
to state refinement claims against the source-derived definitions
above. -/

/-- Spec §4.4: penalty of one severity tier. -/
def sevPenalty : Severity → ℚ
  | Severity.high => 30
  | Severity.medium => 15
  | Severity.low => 5

/-- Spec §4.4: criticality weight. -/
def critWeight : Criticality → ℚ
  | Criticality.critical => 2
  | _ => 1

/-- Spec §4.4: total criticality-weighted penalty of a signal list. -/
def penaltySum (signals : List SignalResult) : ℚ :=
  (signals.map (fun s => sevPenalty s.severity * critWeight s.criticality)).sum

/-- Number of signals at a given severity. -/
def countSev (sev : Severity) (signals : List SignalResult) : ℕ :=
  (signals.filter (fun s => decide (s.severity = sev))).length

/-- Spec §4.4 score with floor/override policy, stated from the spec's
words: baseline `100 - totalPenalty`; forced to `0` on zero deals or an
all-high signal set; clamped to `10` below `10`; else rounded. -/
def scoreSpec (dealsCount : ℕ) (signals : List SignalResult) : ℤ :=
  if dealsCount = 0 ∨ ∀ s ∈ signals, s.severity = Severity.high then 0
  else if 100 - penaltySum signals < 10 then 10
  else jsRound (100 - penaltySum signals)

/-- The first element of `l` (encounter order) whose `f`-value is
maximal over `l`; `none` iff `l` is empty. -/
def firstMaxBy (f : SignalResult → ℚ) (l : List SignalResult) : Option SignalResult :=
  l.find? (fun x => l.all (fun y => decide (f y ≤ f x)))

/-- Spec §4.5: the prioritized fallback chain for the primary risk
driver, stated from the spec's words.  The tie-break of rule 2 is
"largest value, earliest in the signal order", phrased via
`firstMaxBy`. -/
def derivePrimaryRiskDriverSpec (signals : List SignalResult) : String :=
  let dealCH := signals.filter (fun s =>
    decide (s.criticality = Criticality.critical ∧ s.severity = Severity.high)
      && s.key.startsWith ("deals_"))
  match dealCH with
  | s1 :: s2 :: rest =>
    "Forecast integrity is compromised: "
      ++ toString (jsRound (((s1 :: s2 :: rest).map (fun s => s.value)).sum
            / ((s1 :: s2 :: rest).length : ℚ)))
      ++ "% of deals lack critical forecasting fields (close date, amount), making revenue projections unreliable."
  | [s] =>
    s.label ++ ": " ++ toString (jsRound s.value) ++ "% of deals affected. "
      ++ s.impacts.headD "" ++ "."
  | [] =>
    match firstMaxBy (fun s => s.value)
        (signals.filter (fun s => decide (s.severity = Severity.high))) with
    | some worst =>
      worst.label ++ ": " ++ toString (jsRound worst.value) ++ "% missing. "
        ++ worst.impacts.headD "" ++ "."
    | none => "Data quality is acceptable. Minor improvements recommended."

/-- Spec §4.3: the pipeline-or-stage signal value, stated from the
spec's words (per-record logical OR; `0` on an empty collection). -/
def pctMissingStageOrPipelineSpec (deals : List Record) : ℚ :=
  if deals.length = 0 then 0
  else ((deals.filter (fun d => isMissingVal (d.properties ("dealstage"))
        || isMissingVal (d.properties ("pipeline")))).length : ℚ)
      / (deals.length : ℚ) * 100

/-- The explicit list of the seven signal results produced by
`computeSignals` (all seven keys are present in the registry), proved
equal to `(computeSignals contacts companies deals).signalResults`. -/
def auditSignals (contacts companies deals : List Record) : List SignalResult :=
  [{ key := "contacts_missing_email_pct"
     label := "Contacts Missing Email"
     value := calculateMissingPct (some contacts) ("email")
     severity := getSeverity (calculateMissingPct (some contacts) ("email")) Criticality.high
     criticality := Criticality.high
     impacts := ["Cannot identify returning visitors",
                 "Attribution reporting will be incomplete",
                 "Marketing automation emails will fail"] },
   { key := "contacts_missing_lifecycle_pct"
     label := "Contacts Missing Lifecycle Stage"
     value := calculateMissingPct (some contacts) ("lifecyclestage")
     severity := getSeverity (calculateMissingPct (some contacts) ("lifecyclestage")) Criticality.high
     criticality := Criticality.high
     impacts := ["Funnel conversion rates cannot be calculated",
                 "Leads may get stuck in limbo without clear ownership",
                 "Marketing cannot segment by buying stage"] },
   { key := "companies_missing_domain_pct"
     label := "Companies Missing Domain Name"
     value := calculateMissingPct (some companies) ("domain")
     severity := getSeverity (calculateMissingPct (some companies) ("domain")) Criticality.high
     criticality := Criticality.high
     impacts := ["Automatic association of contacts to companies will fail",
                 "De-duplication logic is compromised",
                 "Third-party enrichment tools cannot function"] },
   { key := "companies_missing_industry_pct"
     label := "Companies Missing Industry"
     value := calculateMissingPct (some companies) ("industry")
     severity := getSeverity (calculateMissingPct (some companies) ("industry")) Criticality.medium
     criticality := Criticality.medium
     impacts := ["ICP (Ideal Customer Profile) analysis unavailable",
                 "Account segmentation for ABM is impossible",
                 "Strategic reporting by vertical is compromised"] },
   { key := "deals_missing_close_date_pct"
     label := "Deals Missing Close Date"
     value := calculateMissingPct (some deals) ("closedate")
     severity := getSeverity (calculateMissingPct (some deals) ("closedate")) Criticality.critical
     criticality := Criticality.critical
     impacts := ["Forecast accuracy is fundamentally unreliable",
                 "Revenue projections cannot be trusted",
                 "Sales velocity metrics will be incorrect"] },
   { key := "deals_missing_amount_pct"
     label := "Deals Missing Amount"
     value := calculateMissingPct (some deals) ("amount")
     severity := getSeverity (calculateMissingPct (some deals) ("amount")) Criticality.critical
     criticality := Criticality.critical
     impacts := ["Total pipeline value is underreported",
                 "Win rates by value cannot be calculated",
                 "Rep quota attainment tracking is broken"] },
   { key := "deals_missing_pipeline_or_stage_pct"
     label := "Deals Missing Pipeline/Stage"
     value := missingStagePct deals
     severity := getSeverity (missingStagePct deals) Criticality.critical
     criticality := Criticality.critical
     impacts := ["Deals are invisible in the board view",
                 "Sales process adherence cannot be verified",
                 "Conversion rates between stages are calculable"] }]

/-! Concrete inputs used by witnesses and counterexamples. -/

/-- A concrete record whose `email` is missing and other fields present. -/
def recNoEmail : Record :=
  ⟨fun k => if k = "email" then none else some "x"⟩

/-- A concrete record with every property present and nonempty. -/
def recFull : Record :=
  ⟨fun _ => some "x"⟩

/-- A concrete high-severity critical signal (close date, 50% missing). -/
def sigClose : SignalResult :=
  { key := "deals_missing_close_date_pct"
    label := "Deals Missing Close Date"
    value := 50
    severity := Severity.high
    criticality := Criticality.critical
    impacts := ["Forecast accuracy is fundamentally unreliable",
                "Revenue projections cannot be trusted",
                "Sales velocity metrics will be incorrect"] }

/-- The scored version of `sigClose` (order weight 100, high bonus 10). -/
def ssClose : ScoredSignal :=
  { signal := sigClose
    template :=
      { action := "Enforce required Close Date on all deals", effort := "low",
        time_to_value_days := 7, domain := "revenue_forecasting",
        owner_role := "Sales Ops", order_weight := 100 }
    score := 110 }

/-- A concrete signal list holding the same signal twice (a tie). -/
def demoSignals : List SignalResult := [sigClose, sigClose]

/-! Theorems. -/

/-- C2: the severity classifier returns `high` iff `p > 30`, `medium` iff
`10 < p ≤ 30`, and `low` otherwise, with the critical-escalation rule
checked first but never changing any boundary: `getSeverity p critical`
agrees with the result at every other criticality tier. -/
theorem C2_severity_thresholds (p : ℚ) (c : Criticality) :
    getSeverity p c =
      (if p > 30 then Severity.high
       else if p > 10 then Severity.medium else Severity.low)
    ∧ getSeverity p Criticality.critical = getSeverity p c := by
  unfold getSeverity
  constructor
  · split_ifs with h1 h2 h3 <;> first | rfl | tauto
  · split_ifs with h1 h2 h3 <;> first | rfl | tauto

/-- C7: `calculateMissingPct` returns a rational in `[0, 100]`; a null or
empty collection gives exactly `0`; and on a nonempty collection it is
exactly `100 * (missing count) / (record count)`. -/
theorem C7_calculateMissingPct_contract
    (records : Option (List Record)) (property : String) :
    calculateMissingPct none property = 0
    ∧ calculateMissingPct (some []) property = 0
    ∧ 0 ≤ calculateMissingPct records property
    ∧ calculateMissingPct records property ≤ 100
    ∧ (∀ rs : List Record, rs ≠ [] →
        calculateMissingPct (some rs) property =
          ((rs.filter (fun r => isMissingVal (r.properties property))).length : ℚ)
            / (rs.length : ℚ) * 100) := by
  refine ⟨rfl, rfl, ?_, ?_, ?_⟩
  · cases records with
    | none => simp [calculateMissingPct]
    | some rs =>
      simp only [calculateMissingPct]
      split_ifs with h
      · exact le_refl 0
      · positivity
  · cases records with
    | none => simp [calculateMissingPct]
    | some rs =>
      simp only [calculateMissingPct]
      split_ifs with h
      · norm_num
      · have hlen : 0 < (rs.length : ℚ) := by
          have : 0 < rs.length := Nat.pos_of_ne_zero h
          exact_mod_cast this
        have hcount : ((rs.filter (fun r => isMissingVal (r.properties property))).length : ℚ)
            ≤ (rs.length : ℚ) := by
          exact_mod_cast List.length_filter_le _ rs
        have hdiv : ((rs.filter (fun r => isMissingVal (r.properties property))).length : ℚ)
            / (rs.length : ℚ) ≤ 1 := by
          rw [div_le_one hlen]
          exact hcount
        calc ((rs.filter (fun r => isMissingVal (r.properties property))).length : ℚ)
              / (rs.length : ℚ) * 100 ≤ 1 * 100 := by
                exact mul_le_mul_of_nonneg_right hdiv (by norm_num)
          _ = 100 := by norm_num
  · intro rs hrs
    simp only [calculateMissingPct]
    rw [if_neg (by simpa using hrs)]

/-- Witness for C7: the nonempty-collection clause applied at a concrete
two-record collection, where the computed percentage is 50. -/
theorem C7_calculateMissingPct_contract_witness :
    ([recNoEmail, recFull] ≠ ([] : List Record))
    ∧ calculateMissingPct (some [recNoEmail, recFull]) "email" =
        (([recNoEmail, recFull].filter
            (fun r => isMissingVal (r.properties "email"))).length : ℚ)
          / (([recNoEmail, recFull] : List Record).length : ℚ) * 100
    ∧ calculateMissingPct (some [recNoEmail, recFull]) "email" = 50 :=
  ⟨by simp,
   (C7_calculateMissingPct_contract (some [recNoEmail, recFull]) "email").2.2.2.2
     [recNoEmail, recFull] (by simp),
   by
     simp [calculateMissingPct, recNoEmail, recFull, isMissingVal, List.filter]
     norm_num⟩

/-! Helper lemmas about rounding, counting and the audit state. -/

theorem jsRound_intCast (n : ℤ) : jsRound (n : ℚ) = n := by
  unfold jsRound
  rw [Int.floor_int_add]
  norm_num [Int.floor_eq_zero_iff]

theorem jsRound_mono {a b : ℚ} (h : a ≤ b) : jsRound a ≤ jsRound b :=
  Int.floor_le_floor (by linarith)

theorem le_jsRound {n : ℤ} {q : ℚ} (h : (n : ℚ) ≤ q) : n ≤ jsRound q :=
  Int.le_floor.mpr (by linarith)

theorem jsRound_le {n : ℤ} {q : ℚ} (h : q ≤ (n : ℚ)) : jsRound q ≤ n := by
  have hlt : jsRound q < n + 1 := by
    apply Int.floor_lt.mpr
    push_cast
    linarith
  omega

theorem countSev_append (sev : Severity) (l1 l2 : List SignalResult) :
    countSev sev (l1 ++ l2) = countSev sev l1 + countSev sev l2 := by
  simp [countSev, List.filter_append]

theorem penaltySum_append (l1 l2 : List SignalResult) :
    penaltySum (l1 ++ l2) = penaltySum l1 + penaltySum l2 := by
  simp [penaltySum]

/-- `processSignal` preserves the invariant tying the three counters to
the accumulated signal list. -/
theorem processSignal_inv (st : AuditState) (k : String) (v : ℚ)
    (h1 : st.highCount = countSev Severity.high st.signalResults)
    (h2 : st.mediumCount = countSev Severity.medium st.signalResults)
    (h3 : st.totalPenalty = penaltySum st.signalResults) :
    (processSignal st k v).highCount
        = countSev Severity.high (processSignal st k v).signalResults
    ∧ (processSignal st k v).mediumCount
        = countSev Severity.medium (processSignal st k v).signalResults
    ∧ (processSignal st k v).totalPenalty
        = penaltySum (processSignal st k v).signalResults := by
  cases hreg : SIGNAL_REGISTRY k with
  | none => simp [processSignal, hreg, h1, h2, h3]
  | some config =>
    simp only [processSignal, hreg]
    refine ⟨?_, ?_, ?_⟩
    · rw [countSev_append, h1]
      cases hsev : getSeverity v config.criticality <;>
        simp [countSev, List.filter, hsev]
    · rw [countSev_append, h2]
      cases hsev : getSeverity v config.criticality <;>
        simp [countSev, List.filter, hsev]
    · rw [penaltySum_append, h3]
      cases hsev : getSeverity v config.criticality <;>
        cases hc : config.criticality <;>
          simp [penaltySum, sevPenalty, critWeight, hsev, hc]

/-- Chained form of `processSignal_inv` over any input list. -/
theorem foldl_processSignal_inv (inputs : List (String × ℚ)) (st : AuditState)
    (h1 : st.highCount = countSev Severity.high st.signalResults)
    (h2 : st.mediumCount = countSev Severity.medium st.signalResults)
    (h3 : st.totalPenalty = penaltySum st.signalResults) :
    (inputs.foldl (fun s kv => processSignal s kv.1 kv.2) st).highCount
        = countSev Severity.high
            (inputs.foldl (fun s kv => processSignal s kv.1 kv.2) st).signalResults
    ∧ (inputs.foldl (fun s kv => processSignal s kv.1 kv.2) st).mediumCount
        = countSev Severity.medium
            (inputs.foldl (fun s kv => processSignal s kv.1 kv.2) st).signalResults
    ∧ (inputs.foldl (fun s kv => processSignal s kv.1 kv.2) st).totalPenalty
        = penaltySum
            (inputs.foldl (fun s kv => processSignal s kv.1 kv.2) st).signalResults := by
  induction inputs generalizing st with
  | nil => exact ⟨h1, h2, h3⟩
  | cons kv rest ih =>
    obtain ⟨a, b, c⟩ := processSignal_inv st kv.1 kv.2 h1 h2 h3
    exact ih _ a b c

/-- The counters of `computeSignals` match the counts and the penalty
sum over its signal list. -/
theorem computeSignals_inv (contacts companies deals : List Record) :
    (computeSignals contacts companies deals).highCount
        = countSev Severity.high (computeSignals contacts companies deals).signalResults
    ∧ (computeSignals contacts companies deals).mediumCount
        = countSev Severity.medium (computeSignals contacts companies deals).signalResults
    ∧ (computeSignals contacts companies deals).totalPenalty
        = penaltySum (computeSignals contacts companies deals).signalResults := by
  unfold computeSignals
  exact foldl_processSignal_inv _ _ (by simp [countSev]) (by simp [countSev])
    (by simp [penaltySum])

/-- The signal list of `computeSignals`, explicitly. -/
theorem computeSignals_signalResults (contacts companies deals : List Record) :
    (computeSignals contacts companies deals).signalResults
      = auditSignals contacts companies deals := by
  rfl

theorem jsRound_natCast (n : ℕ) : jsRound (n : ℚ) = n := by
  simpa using jsRound_intCast (n : ℤ)

theorem five_le_sevPenalty (s : Severity) : (5 : ℚ) ≤ sevPenalty s := by
  cases s <;> norm_num [sevPenalty]

theorem penaltySum_nonneg (l : List SignalResult) : 0 ≤ penaltySum l := by
  apply List.sum_nonneg
  intro x hx
  simp only [List.mem_map] at hx
  obtain ⟨s, _, rfl⟩ := hx
  have h5 := five_le_sevPenalty s.severity
  have hw : (1 : ℚ) ≤ critWeight s.criticality := by
    cases s.criticality <;> norm_num [critWeight]
  nlinarith

theorem scoreSpec_nonneg (dc : ℕ) (sr : List SignalResult) : 0 ≤ scoreSpec dc sr := by
  unfold scoreSpec
  split_ifs with h1 h2
  · exact le_refl 0
  · norm_num
  · have h10 : (10 : ℤ) ≤ jsRound (100 - penaltySum sr) := by
      apply le_jsRound
      push_cast
      linarith
    omega

theorem scoreSpec_le_100 (dc : ℕ) (sr : List SignalResult)
    (h : 0 ≤ penaltySum sr) : scoreSpec dc sr ≤ 100 := by
  unfold scoreSpec
  split_ifs with h1 h2
  · norm_num
  · norm_num
  · apply jsRound_le
    push_cast
    linarith

/-- The score of `runAudit` equals the §4.4 specification score applied
to the computed signal list. -/
theorem runAudit_score_eq (contacts companies deals : List Record) (now : String) :
    (runAudit contacts companies deals now).overall_health.score
      = scoreSpec deals.length (runAudit contacts companies deals now).signals := by
  have hps := (computeSignals_inv contacts companies deals).2.2
  simp only [runAudit, scoreSpec]
  rw [hps]
  split_ifs with h1 h2
  · simpa using jsRound_natCast 0
  · simpa using jsRound_natCast 10
  · rfl

/-- C1: the overall health score refines the §4.4 penalty-accumulation
and floor/override policy (`scoreSpec` is that policy stated from the
spec's words), is always an integer in `[0, 100]`, and is `0` whenever
the deals collection is empty. -/
theorem C1_overall_score (contacts companies deals : List Record) (now : String) :
    (runAudit contacts companies deals now).overall_health.score
        = scoreSpec deals.length (runAudit contacts companies deals now).signals
    ∧ 0 ≤ (runAudit contacts companies deals now).overall_health.score
    ∧ (runAudit contacts companies deals now).overall_health.score ≤ 100
    ∧ (deals = [] → (runAudit contacts companies deals now).overall_health.score = 0) := by
  refine ⟨runAudit_score_eq contacts companies deals now, ?_, ?_, ?_⟩
  · rw [runAudit_score_eq]
    exact scoreSpec_nonneg _ _
  · rw [runAudit_score_eq]
    exact scoreSpec_le_100 _ _ (penaltySum_nonneg _)
  · intro hd
    rw [runAudit_score_eq, hd]
    simp [scoreSpec]

/-- Witness for C1: on an entirely empty input the zero-deals override
forces the score to `0`. -/
theorem C1_overall_score_witness :
    (runAudit [] [] [] "2026-01-01T00:00:00.000Z").overall_health.score = 0 :=
  (C1_overall_score [] [] [] "2026-01-01T00:00:00.000Z").2.2.2 rfl

/-- C8: `runAudit` is a pure function of the record collections; two
runs on identical inputs agree on every field of the result except
`metadata.generated_at`, which is exactly the supplied timestamp. -/
theorem C8_determinism (contacts companies deals : List Record) (t1 t2 : String) :
    (runAudit contacts companies deals t1).overall_health
        = (runAudit contacts companies deals t2).overall_health
    ∧ (runAudit contacts companies deals t1).signals
        = (runAudit contacts companies deals t2).signals
    ∧ (runAudit contacts companies deals t1).signals_by_object
        = (runAudit contacts companies deals t2).signals_by_object
    ∧ (runAudit contacts companies deals t1).prioritized_actions
        = (runAudit contacts companies deals t2).prioritized_actions
    ∧ (runAudit contacts companies deals t1).metadata.contacts_count
        = (runAudit contacts companies deals t2).metadata.contacts_count
    ∧ (runAudit contacts companies deals t1).metadata.companies_count
        = (runAudit contacts companies deals t2).metadata.companies_count
    ∧ (runAudit contacts companies deals t1).metadata.deals_count
        = (runAudit contacts companies deals t2).metadata.deals_count
    ∧ (runAudit contacts companies deals t1).metadata.generated_at = t1 :=
  ⟨rfl, rfl, rfl, rfl, rfl, rfl, rfl, rfl⟩

/-- C5: the overall severity is `high` iff at least two signals are high
or some critical-criticality signal is itself high; otherwise `medium`
iff at least two signals are medium; otherwise `low`. -/
theorem C5_overall_severity (contacts companies deals : List Record) (now : String) :
    ((runAudit contacts companies deals now).overall_health.severity = Severity.high
      ↔ (2 ≤ countSev Severity.high (runAudit contacts companies deals now).signals
         ∨ ∃ s ∈ (runAudit contacts companies deals now).signals,
             s.criticality = Criticality.critical ∧ s.severity = Severity.high))
    ∧ ((runAudit contacts companies deals now).overall_health.severity = Severity.medium
      ↔ (¬(2 ≤ countSev Severity.high (runAudit contacts companies deals now).signals
           ∨ ∃ s ∈ (runAudit contacts companies deals now).signals,
               s.criticality = Criticality.critical ∧ s.severity = Severity.high)
         ∧ 2 ≤ countSev Severity.medium (runAudit contacts companies deals now).signals))
    ∧ ((runAudit contacts companies deals now).overall_health.severity = Severity.low
      ↔ (¬(2 ≤ countSev Severity.high (runAudit contacts companies deals now).signals
           ∨ ∃ s ∈ (runAudit contacts companies deals now).signals,
               s.criticality = Criticality.critical ∧ s.severity = Severity.high)
         ∧ ¬ 2 ≤ countSev Severity.medium (runAudit contacts companies deals now).signals)) := by
  obtain ⟨hh, hm, -⟩ := computeSignals_inv contacts companies deals
  simp only [runAudit]
  rw [hh, hm]
  split_ifs with h1 h2 h3 <;> simp_all

/-- The inline pipeline-or-stage computation agrees with its spec-side
statement. -/
theorem missingStagePct_eq_spec (deals : List Record) :
    missingStagePct deals = pctMissingStageOrPipelineSpec deals := by
  unfold missingStagePct pctMissingStageOrPipelineSpec
  by_cases h : deals.length = 0 <;> simp [h]

/-- C6: the `deals_missing_pipeline_or_stage_pct` signal appears exactly
once and its value is the percentage of deal records missing either the
stage or the pipeline field (per-record logical OR), which is `0` on an
empty deals collection. -/
theorem C6_pipeline_or_stage_value (contacts companies deals : List Record) (now : String) :
    ((runAudit contacts companies deals now).signals.filter
        (fun s => decide (s.key = "deals_missing_pipeline_or_stage_pct"))).map
        (fun s => s.value)
      = [pctMissingStageOrPipelineSpec deals]
    ∧ (deals = [] → pctMissingStageOrPipelineSpec deals = 0) := by
  constructor
  · have hsig : (runAudit contacts companies deals now).signals
        = auditSignals contacts companies deals := by
      simp only [runAudit]
      exact computeSignals_signalResults contacts companies deals
    rw [hsig]
    simp [auditSignals, missingStagePct_eq_spec]
  · intro h
    simp [pctMissingStageOrPipelineSpec, h]

/-- Witness for C6: on an empty deals collection the signal value is 0. -/
theorem C6_pipeline_or_stage_value_witness :
    pctMissingStageOrPipelineSpec [] = 0 :=
  (C6_pipeline_or_stage_value [] [] [] "2026-01-01T00:00:00.000Z").2 rfl

theorem getSeverity_zero (c : Criticality) : getSeverity 0 c = Severity.low := by
  norm_num [getSeverity]

theorem calculateMissingPct_eq_zero (rs : List Record) (prop : String)
    (h : ∀ r ∈ rs, isMissingVal (r.properties prop) = false) :
    calculateMissingPct (some rs) prop = 0 := by
  simp only [calculateMissingPct]
  split_ifs with hl
  · rfl
  · have hfil : rs.filter (fun r => isMissingVal (r.properties prop)) = [] := by
      apply List.filter_eq_nil_iff.mpr
      intro a ha
      simp [h a ha]
    simp [hfil]

theorem missingStagePct_eq_zero (deals : List Record)
    (h : ∀ r ∈ deals, (isMissingVal (r.properties ("dealstage"))
        || isMissingVal (r.properties ("pipeline"))) = false) :
    missingStagePct deals = 0 := by
  simp only [missingStagePct]
  split_ifs with hl
  · have hfil : deals.filter (fun d => isMissingVal (d.properties ("dealstage"))
        || isMissingVal (d.properties ("pipeline"))) = [] := by
      apply List.filter_eq_nil_iff.mpr
      intro a ha
      simp [h a ha]
    simp [hfil]
  · rfl

theorem fifty_le_penaltySum_auditSignals (contacts companies deals : List Record) :
    50 ≤ penaltySum (auditSignals contacts companies deals) := by
  have hfg : ∀ s ∈ auditSignals contacts companies deals,
      5 * critWeight s.criticality ≤ sevPenalty s.severity * critWeight s.criticality := by
    intro s _
    have h5 := five_le_sevPenalty s.severity
    have hw : 0 ≤ critWeight s.criticality := by
      cases s.criticality <;> norm_num [critWeight]
    nlinarith
  have hsum := List.sum_le_sum hfg
  have hlow : ((auditSignals contacts companies deals).map
      (fun s => 5 * critWeight s.criticality)).sum = 50 := by
    simp [auditSignals, critWeight]
    norm_num
  calc (50 : ℚ) = ((auditSignals contacts companies deals).map
        (fun s => 5 * critWeight s.criticality)).sum := hlow.symm
    _ ≤ ((auditSignals contacts companies deals).map
        (fun s => sevPenalty s.severity * critWeight s.criticality)).sum := hsum
    _ = penaltySum (auditSignals contacts companies deals) := rfl

/-- `scoreSpec` on a nonempty-deals run whose signals are all low with
total penalty exactly 50. -/
theorem scoreSpec_all_low (dc : ℕ) (sr : List SignalResult)
    (hdc : dc ≠ 0) (hsr : sr ≠ [])
    (hlow : ∀ s ∈ sr, s.severity = Severity.low)
    (hps : penaltySum sr = 50) : scoreSpec dc sr = 50 := by
  unfold scoreSpec
  split_ifs with h1 h2
  · exfalso
    rcases h1 with h | h
    · exact hdc h
    · obtain ⟨s, hs⟩ := List.exists_mem_of_ne_nil sr hsr
      have hx := h s hs
      have hy := hlow s hs
      rw [hy] at hx
      exact Severity.noConfusion hx
  · rw [hps] at h2
    norm_num at h2
  · rw [hps]
    have he : (100 : ℚ) - 50 = ((50 : ℕ) : ℚ) := by norm_num
    rw [he, jsRound_natCast]
    norm_num

/-- C10: with at least one deal record the overall score never exceeds
50 (the seven always-present signals contribute a penalty of at least
50), and a dataset with no missing values at all scores exactly 50. -/
theorem C10_score_cap (contacts companies deals : List Record) (now : String)
    (hd : deals ≠ []) :
    (runAudit contacts companies deals now).overall_health.score ≤ 50
    ∧ ((∀ r ∈ contacts, isMissingVal (r.properties ("email")) = false
          ∧ isMissingVal (r.properties ("lifecyclestage")) = false)
       → (∀ r ∈ companies, isMissingVal (r.properties ("domain")) = false
          ∧ isMissingVal (r.properties ("industry")) = false)
       → (∀ r ∈ deals, isMissingVal (r.properties ("closedate")) = false
          ∧ isMissingVal (r.properties ("amount")) = false
          ∧ isMissingVal (r.properties ("dealstage")) = false
          ∧ isMissingVal (r.properties ("pipeline")) = false)
       → (runAudit contacts companies deals now).overall_health.score = 50) := by
  have hsig : (runAudit contacts companies deals now).signals
      = auditSignals contacts companies deals := by
    simp only [runAudit]
    exact computeSignals_signalResults contacts companies deals
  constructor
  · rw [runAudit_score_eq, hsig]
    unfold scoreSpec
    split_ifs with h1 h2
    · norm_num
    · norm_num
    · apply jsRound_le
      push_cast
      have h50 := fifty_le_penaltySum_auditSignals contacts companies deals
      linarith
  · intro hc hp hdl
    rw [runAudit_score_eq, hsig]
    have hv1 : calculateMissingPct (some contacts) ("email") = 0 :=
      calculateMissingPct_eq_zero _ _ (fun r hr => (hc r hr).1)
    have hv2 : calculateMissingPct (some contacts) ("lifecyclestage") = 0 :=
      calculateMissingPct_eq_zero _ _ (fun r hr => (hc r hr).2)
    have hv3 : calculateMissingPct (some companies) ("domain") = 0 :=
      calculateMissingPct_eq_zero _ _ (fun r hr => (hp r hr).1)
    have hv4 : calculateMissingPct (some companies) ("industry") = 0 :=
      calculateMissingPct_eq_zero _ _ (fun r hr => (hp r hr).2)
    have hv5 : calculateMissingPct (some deals) ("closedate") = 0 :=
      calculateMissingPct_eq_zero _ _ (fun r hr => (hdl r hr).1)
    have hv6 : calculateMissingPct (some deals) ("amount") = 0 :=
      calculateMissingPct_eq_zero _ _ (fun r hr => (hdl r hr).2.1)
    have hv7 : missingStagePct deals = 0 := by
      apply missingStagePct_eq_zero
      intro r hr
      simp [(hdl r hr).2.2.1, (hdl r hr).2.2.2]
    apply scoreSpec_all_low
    · intro h
      exact hd (List.length_eq_zero.mp h)
    · simp [auditSignals]
    · simp [auditSignals, hv1, hv2, hv3, hv4, hv5, hv6, hv7, getSeverity_zero]
    · simp [penaltySum, auditSignals, hv1, hv2, hv3, hv4, hv5, hv6, hv7,
        getSeverity_zero, sevPenalty, critWeight]
      norm_num

/-- `find?` only depends on the predicate's values on the list. -/
theorem find?_congr_mem {α : Type} {p q : α → Bool}
    (l : List α) (h : ∀ x ∈ l, p x = q x) : l.find? p = l.find? q := by
  induction l with
  | nil => rfl
  | cons a l ih =>
    have ha := h a (List.mem_cons_self a l)
    by_cases hq : q a = true
    · rw [List.find?_cons_of_pos _ (by rw [ha]; exact hq),
        List.find?_cons_of_pos _ hq]
    · rw [List.find?_cons_of_neg _ (by rw [ha]; exact hq),
        List.find?_cons_of_neg _ hq]
      exact ih (fun x hx => h x (List.mem_cons_of_mem a hx))

/-- The head of the stable descending sort by value is the first
element (encounter order) attaining the maximal value: exactly the
JavaScript `highSeverity.sort((a, b) => b.value - a.value)[0]`
tie-break. -/
theorem head?_insertionSort_value (l : List SignalResult) :
    (List.insertionSort (fun a b : SignalResult => b.value ≤ a.value) l).head?
      = firstMaxBy (fun s => s.value) l := by
  induction l with
  | nil => rfl
  | cons a l ih =>
    simp only [List.insertionSort]
    by_cases hA : ∀ y ∈ l, y.value ≤ a.value
    · have hpa : ((a :: l).all (fun y => decide (y.value ≤ a.value))) = true := by
        simp only [List.all_eq_true, decide_eq_true_eq]
        intro y hy
        rcases List.mem_cons.mp hy with rfl | hy2
        · exact le_refl _
        · exact hA y hy2
      have hRHS : firstMaxBy (fun s => s.value) (a :: l) = some a := by
        simp only [firstMaxBy]
        exact List.find?_cons_of_pos _ hpa
      rw [hRHS]
      cases hL : List.insertionSort (fun a b : SignalResult => b.value ≤ a.value) l with
      | nil => simp [List.orderedInsert]
      | cons h t =>
        have hmem : h ∈ l := by
          have hperm := List.perm_insertionSort
            (fun a b : SignalResult => b.value ≤ a.value) l
          exact hperm.subset (by rw [hL]; exact List.mem_cons_self h t)
        have hr : h.value ≤ a.value := hA h hmem
        rw [List.orderedInsert_of_le (fun x y : SignalResult => y.value ≤ x.value) t hr]
        rfl
    · push_neg at hA
      obtain ⟨y, hy, hfy⟩ := hA
      have hpa : ¬(((a :: l).all (fun z => decide (z.value ≤ a.value))) = true) := by
        simp only [List.all_eq_true, decide_eq_true_eq]
        intro hall
        exact absurd (hall y (List.mem_cons_of_mem a hy)) (not_le.mpr hfy)
      have hstep1 : firstMaxBy (fun s => s.value) (a :: l)
          = l.find? (fun x => (a :: l).all (fun z => decide (z.value ≤ x.value))) := by
        simp only [firstMaxBy]
        exact List.find?_cons_of_neg _ hpa
      have hstep2 : l.find? (fun x => (a :: l).all (fun z => decide (z.value ≤ x.value)))
          = l.find? (fun x => l.all (fun z => decide (z.value ≤ x.value))) := by
        apply find?_congr_mem
        intro x hx
        by_cases hall : l.all (fun z => decide (z.value ≤ x.value)) = true
        · have hyx : y.value ≤ x.value := by
            have hz := List.all_eq_true.mp hall y hy
            exact decide_eq_true_eq.mp hz
          have hax : a.value ≤ x.value := by linarith
          simp [List.all_cons, hall, hax]
        · simp only [Bool.not_eq_true] at hall
          simp [List.all_cons, hall]
      have hLne : List.insertionSort (fun a b : SignalResult => b.value ≤ a.value) l ≠ [] := by
        intro h0
        have hperm := List.perm_insertionSort
          (fun a b : SignalResult => b.value ≤ a.value) l
        rw [h0] at hperm
        have hnil : l = [] := hperm.symm.eq_nil
        subst hnil
        exact absurd hy (List.not_mem_nil y)
      obtain ⟨h, t, hL⟩ := List.exists_cons_of_ne_nil hLne
      have hfind : l.find? (fun x => l.all (fun z => decide (z.value ≤ x.value))) = some h := by
        have hih := ih
        rw [hL] at hih
        simp only [firstMaxBy] at hih
        exact hih.symm
      have hall_h : ∀ z ∈ l, z.value ≤ h.value := by
        have hp := List.find?_some hfind
        simp only [List.all_eq_true, decide_eq_true_eq] at hp
        exact hp
      have hr : ¬(h.value ≤ a.value) := by
        have := hall_h y hy
        linarith
      rw [hL]
      simp only [List.orderedInsert]
      rw [if_neg hr]
      rw [hstep1, hstep2, hfind]
      rfl

/-- The source fall-through tail equals the spec's rule-2/rule-3
branch. -/
theorem riskDriverFallback_eq (signals : List SignalResult) :
    riskDriverFallback signals =
      match firstMaxBy (fun s => s.value)
          (signals.filter (fun s => decide (s.severity = Severity.high))) with
      | some worst =>
        worst.label ++ ": " ++ toString (jsRound worst.value) ++ "% missing. "
          ++ worst.impacts.headD "" ++ "."
      | none => "Data quality is acceptable. Minor improvements recommended." := by
  unfold riskDriverFallback
  have hmax := head?_insertionSort_value
    (signals.filter (fun s => decide (s.severity = Severity.high)))
  cases hs : List.insertionSort (fun a b : SignalResult => b.value ≤ a.value)
      (signals.filter (fun s => decide (s.severity = Severity.high))) with
  | nil =>
    rw [hs] at hmax
    rw [← hmax]
    rfl
  | cons w t =>
    rw [hs] at hmax
    rw [← hmax]
    rfl

/-- C4: `derivePrimaryRiskDriver` implements exactly the §4.5
prioritized fallback chain (`derivePrimaryRiskDriverSpec`, stated from
the spec's words): the deal-related critical-and-high signals drive
rules 1a/1b, then the largest-value high-severity signal with
first-encounter tie-break, then the fixed sentence. -/
theorem C4_primary_risk_driver (signals : List SignalResult) :
    derivePrimaryRiskDriver signals = derivePrimaryRiskDriverSpec signals := by
  have hfilter : (signals.filter (fun s =>
        decide (s.criticality = Criticality.critical ∧ s.severity = Severity.high))).filter
        (fun s => s.key.startsWith ("deals_"))
      = signals.filter (fun s =>
          decide (s.criticality = Criticality.critical ∧ s.severity = Severity.high)
            && s.key.startsWith ("deals_")) := by
    rw [List.filter_filter]
    exact List.filter_congr (fun x _ => Bool.and_comm _ _)
  simp only [derivePrimaryRiskDriver, derivePrimaryRiskDriverSpec]
  rw [hfilter]
  cases hdl : signals.filter (fun s =>
      decide (s.criticality = Criticality.critical ∧ s.severity = Severity.high)
        && s.key.startsWith ("deals_")) with
  | nil =>
    simp only [List.length_nil, ge_iff_le]
    rw [riskDriverFallback_eq]
    by_cases hch : (signals.filter (fun s =>
        decide (s.criticality = Criticality.critical ∧ s.severity = Severity.high))).length > 0
    · rw [if_pos hch]
      norm_num
    · rw [if_neg hch]
  | cons s1 tail =>
    have hmem1 : s1 ∈ signals.filter (fun s =>
        decide (s.criticality = Criticality.critical ∧ s.severity = Severity.high)
          && s.key.startsWith ("deals_")) := by
      rw [hdl]
      exact List.mem_cons_self _ _
    have hch : (signals.filter (fun s =>
        decide (s.criticality = Criticality.critical ∧ s.severity = Severity.high))).length > 0 := by
      have hm := List.mem_filter.mp hmem1
      have hm2 := hm.2
      rw [Bool.and_eq_true] at hm2
      have hpch := hm2.1
      have : s1 ∈ signals.filter (fun s =>
          decide (s.criticality = Criticality.critical ∧ s.severity = Severity.high)) :=
        List.mem_filter.mpr ⟨hm.1, hpch⟩
      exact List.length_pos.mpr (List.ne_nil_of_mem this)
    rw [if_pos hch]
    cases tail with
    | nil => simp
    | cons s2 rest =>
      have hlen : (s1 :: s2 :: rest).length ≥ 2 := by
        simp only [List.length_cons]
        omega
      rw [if_pos hlen]

/-- Unpacking membership in `scoreSignals`: every scored signal has
non-low severity, a catalog template for its key, and the
`order_weight + 10·[high]` score. -/
theorem mem_scoreSignals {signals : List SignalResult} {ss : ScoredSignal}
    (h : ss ∈ scoreSignals signals) :
    ss.signal.severity ≠ Severity.low
    ∧ ACTION_TEMPLATES ss.signal.key = some ss.template
    ∧ ss.score = ss.template.order_weight
        + (if ss.signal.severity = Severity.high then 10 else 0) := by
  unfold scoreSignals at h
  obtain ⟨sig, hsig, hmap⟩ := List.mem_filterMap.mp h
  cases ht : ACTION_TEMPLATES sig.key with
  | none =>
    rw [ht] at hmap
    exact absurd hmap (by simp)
  | some tpl =>
    rw [ht] at hmap
    have hss := Option.some.inj hmap
    have hfil := List.mem_filter.mp hsig
    have hsev : sig.severity ≠ Severity.low := by
      have := hfil.2
      simpa using this
    rw [← hss]
    exact ⟨hsev, ht, rfl⟩

/-- Every emitted action is `mkAction` of a scored signal at its
(0-based rank)+1. -/
theorem mem_generatePrioritizedActions {signals : List SignalResult}
    {a : ActionRecommendation} (h : a ∈ generatePrioritizedActions signals) :
    ∃ n ss, ss ∈ scoreSignals signals ∧ a = mkAction (n + 1) ss := by
  unfold generatePrioritizedActions at h
  obtain ⟨p, hp, hpa⟩ := List.mem_map.mp h
  refine ⟨p.1, p.2, ?_, hpa.symm⟩
  have h2 : p.2 ∈ sortedScoredSignals signals := by
    have hm : p.2 ∈ (sortedScoredSignals signals).enum.map Prod.snd :=
      List.mem_map_of_mem Prod.snd hp
    rwa [List.enum_map_snd] at hm
  unfold sortedScoredSignals at h2
  exact (List.perm_insertionSort _ _).subset h2

/-- The priorities of enumerated actions form `1..N`. -/
theorem enum_map_add_one (l : List ScoredSignal) :
    l.enum.map (fun p => p.1 + 1) = List.range' 1 l.length :=
  calc l.enum.map (fun p => p.1 + 1)
      = l.enum.map ((fun n => n + 1) ∘ Prod.fst) := rfl
    _ = (l.enum.map Prod.fst).map (fun n => n + 1) := (List.map_map _ _ _).symm
    _ = (List.range l.length).map (fun n => n + 1) := by rw [List.enum_map_fst]
    _ = (List.range l.length).map (fun n => 1 + n) :=
        List.map_congr_left (fun a _ => Nat.add_comm a 1)
    _ = List.range' 1 l.length := (List.range'_eq_map_range 1 l.length).symm

/-- C3: the prioritized action list drops low-severity signals, silently
omits signals without a catalog template, scores each kept signal as
`order_weight + 10·[severity = high]`, sorts stably descending by that
score (ties keep encounter order), assigns dense 1-based priorities,
caps impacts at two, and marks `tier = "primary"` exactly for priority
at most 5. -/
theorem C3_prioritized_actions (signals : List SignalResult) :
    ((generatePrioritizedActions signals).map (fun a => a.priority)
        = List.range' 1 (generatePrioritizedActions signals).length)
    ∧ (∀ a ∈ generatePrioritizedActions signals, a.severity ≠ Severity.low)
    ∧ (∀ a ∈ generatePrioritizedActions signals, (a.tier = "primary" ↔ a.priority ≤ 5))
    ∧ (∀ a ∈ generatePrioritizedActions signals, a.impacts.length ≤ 2)
    ∧ List.Pairwise (fun x y : ScoredSignal => y.score ≤ x.score)
        (sortedScoredSignals signals)
    ∧ (sortedScoredSignals signals).Perm (scoreSignals signals)
    ∧ (∀ x y : ScoredSignal, List.Sublist [x, y] (scoreSignals signals)
        → y.score ≤ x.score → List.Sublist [x, y] (sortedScoredSignals signals))
    ∧ (∀ ss ∈ scoreSignals signals,
        ss.score = ss.template.order_weight
          + (if ss.signal.severity = Severity.high then 10 else 0)
        ∧ ACTION_TEMPLATES ss.signal.key = some ss.template
        ∧ ss.signal.severity ≠ Severity.low) := by
  haveI htotal : IsTotal ScoredSignal (fun a b : ScoredSignal => b.score ≤ a.score) :=
    ⟨fun a b => le_total b.score a.score⟩
  haveI htrans : IsTrans ScoredSignal (fun a b : ScoredSignal => b.score ≤ a.score) :=
    ⟨fun a b c hab hbc => le_trans hbc hab⟩
  refine ⟨?_, ?_, ?_, ?_, ?_, ?_, ?_, ?_⟩
  · unfold generatePrioritizedActions
    rw [List.map_map, List.length_map]
    have hproj : ((fun a : ActionRecommendation => a.priority)
        ∘ (fun p : ℕ × ScoredSignal => mkAction (p.1 + 1) p.2))
        = fun p : ℕ × ScoredSignal => p.1 + 1 := rfl
    rw [hproj, List.enum_length, enum_map_add_one]
  · intro a ha
    obtain ⟨n, ss, hss, rfl⟩ := mem_generatePrioritizedActions ha
    have := (mem_scoreSignals hss).1
    simpa [mkAction] using this
  · intro a ha
    obtain ⟨n, ss, hss, rfl⟩ := mem_generatePrioritizedActions ha
    by_cases h5 : n + 1 ≤ 5
    · simp [mkAction, h5]
    · simp [mkAction, h5]
  · intro a ha
    obtain ⟨n, ss, hss, rfl⟩ := mem_generatePrioritizedActions ha
    simp only [mkAction]
    exact le_trans (List.length_take_le 2 _) (le_refl 2)
  · unfold sortedScoredSignals
    exact List.sorted_insertionSort _ _
  · unfold sortedScoredSignals
    exact List.perm_insertionSort _ _
  · intro x y hsub hle
    unfold sortedScoredSignals
    exact List.pair_sublist_insertionSort hle hsub
  · intro ss hss
    obtain ⟨h1, h2, h3⟩ := mem_scoreSignals hss
    exact ⟨h3, h2, h1⟩

/-- Witness for C3: on a list holding the same high-severity critical
signal twice, the tied pair keeps its encounter order in the sorted
output, and the priorities are exactly `1..2`. -/
theorem C3_prioritized_actions_witness :
    List.Sublist [ssClose, ssClose] (sortedScoredSignals demoSignals)
    ∧ (generatePrioritizedActions demoSignals).map (fun a => a.priority)
        = List.range' 1 (generatePrioritizedActions demoSignals).length :=
  ⟨(C3_prioritized_actions demoSignals).2.2.2.2.2.2.1 ssClose ssClose
      (List.Sublist.refl _) (le_refl _),
   (C3_prioritized_actions demoSignals).1⟩

theorem sevPenalty_mono {a b : Severity} (h : sevRank a ≤ sevRank b) :
    sevPenalty a ≤ sevPenalty b := by
  cases a <;> cases b <;> simp_all [sevRank, sevPenalty] <;> norm_num

theorem sevRank_high_le {s : Severity} (h : 2 ≤ sevRank s) : s = Severity.high := by
  cases s <;> simp_all [sevRank]

/-- Pointwise severity worsening with pointwise-equal criticalities
makes the penalty sum grow. -/
theorem forall₂_penaltySum_mono :
    ∀ (l1 l2 : List SignalResult),
      List.Forall₂ (fun s1 s2 => sevRank s1.severity ≤ sevRank s2.severity) l1 l2 →
      List.Forall₂ (fun s1 s2 => s1.criticality = s2.criticality) l1 l2 →
      penaltySum l1 ≤ penaltySum l2
  | [], [], _, _ => le_refl _
  | [], _ :: _, hsev, _ => absurd hsev (by simp)
  | _ :: _, [], hsev, _ => absurd hsev (by simp)
  | a :: l, b :: m, hsev, hcrit => by
    obtain ⟨hr, hrest⟩ := List.forall₂_cons.mp hsev
    obtain ⟨hc, hcrest⟩ := List.forall₂_cons.mp hcrit
    have hterm : sevPenalty a.severity * critWeight a.criticality
        ≤ sevPenalty b.severity * critWeight b.criticality := by
      rw [hc]
      have hp := sevPenalty_mono hr
      have hw : 0 ≤ critWeight b.criticality := by
        cases b.criticality <;> norm_num [critWeight]
      exact mul_le_mul_of_nonneg_right hp hw
    have ih := forall₂_penaltySum_mono l m hrest hcrest
    simp only [penaltySum, List.map_cons, List.sum_cons] at ih ⊢
    linarith

/-- Pointwise severity worsening preserves the all-high property. -/
theorem forall₂_all_high {l1 l2 : List SignalResult}
    (hsev : List.Forall₂ (fun s1 s2 => sevRank s1.severity ≤ sevRank s2.severity) l1 l2)
    (h : ∀ s ∈ l1, s.severity = Severity.high) :
    ∀ s ∈ l2, s.severity = Severity.high := by
  induction hsev with
  | nil => intro s hs; exact absurd hs (List.not_mem_nil s)
  | @cons a b l m hr hrest ih =>
    intro s hs
    rcases List.mem_cons.mp hs with rfl | hs2
    · apply sevRank_high_le
      have ha := h a (List.mem_cons_self a l)
      rw [ha] at hr
      simpa [sevRank] using hr
    · exact ih (fun t ht => h t (List.mem_cons_of_mem a ht)) s hs2

/-- `scoreSpec` is antitone under pointwise-worse signals, provided the
zero-deals override of the second run is implied by the first's. -/
theorem scoreSpec_mono (d1c d2c : ℕ) (l1 l2 : List SignalResult)
    (hps : penaltySum l1 ≤ penaltySum l2)
    (hall : (∀ s ∈ l1, s.severity = Severity.high) → (∀ s ∈ l2, s.severity = Severity.high))
    (hd : d1c = 0 → d2c = 0) :
    scoreSpec d2c l2 ≤ scoreSpec d1c l1 := by
  unfold scoreSpec
  by_cases h1 : d1c = 0 ∨ ∀ s ∈ l1, s.severity = Severity.high
  · have h2 : d2c = 0 ∨ ∀ s ∈ l2, s.severity = Severity.high := by
      rcases h1 with h | h
      · exact Or.inl (hd h)
      · exact Or.inr (hall h)
    rw [if_pos h1, if_pos h2]
  · rw [if_neg h1]
    by_cases h2 : d2c = 0 ∨ ∀ s ∈ l2, s.severity = Severity.high
    · rw [if_pos h2]
      split_ifs with h3
      · norm_num
      · have h10 : (10 : ℤ) ≤ jsRound (100 - penaltySum l1) := by
          apply le_jsRound
          push_cast
          linarith [not_lt.mp h3]
        omega
    · rw [if_neg h2]
      split_ifs with h3 h4
      · exact le_refl 10
      · apply le_jsRound
        push_cast
        linarith [not_lt.mp h4]
      · exfalso
        have := not_lt.mp h3
        linarith
      · exact jsRound_mono (by linarith)

theorem cmp_empty (prop : String) :
    calculateMissingPct (some ([] : List Record)) prop = 0 := rfl

theorem cmp_recFull (prop : String) :
    calculateMissingPct (some [recFull]) prop = 0 := by
  apply calculateMissingPct_eq_zero
  intro r hr
  simp only [List.mem_singleton] at hr
  subst hr
  rfl

theorem msp_empty : missingStagePct ([] : List Record) = 0 := rfl

theorem msp_recFull : missingStagePct [recFull] = 0 := by
  apply missingStagePct_eq_zero
  intro r hr
  simp only [List.mem_singleton] at hr
  subst hr
  rfl

/-- Witness for C5: on an all-empty input (no high or medium signal and
no critical failure) the overall severity is `low`. -/
theorem C5_overall_severity_witness :
    (runAudit [] [] [] "t").overall_health.severity = Severity.low := by
  have h := (C5_overall_severity [] [] [] "t").2.2
  apply h.mpr
  have hs1 : (runAudit [] [] [] "t").signals = auditSignals [] [] [] := by
    simp only [runAudit]
    exact computeSignals_signalResults [] [] []
  rw [hs1]
  constructor
  · intro hcon
    rcases hcon with h2 | ⟨s, hs, -, hsev⟩
    · have : countSev Severity.high (auditSignals [] [] []) = 0 := by
        simp [countSev, auditSignals, calculateMissingPct, missingStagePct, getSeverity_zero]
      omega
    · have hlow : s.severity = Severity.low := by
        revert hs
        simp [auditSignals, calculateMissingPct, missingStagePct, getSeverity_zero]
        intro hmem
        rcases hmem with rfl | rfl | rfl | rfl | rfl | rfl | rfl <;> rfl
      rw [hlow] at hsev
      exact Severity.noConfusion hsev
  · intro h2
    have : countSev Severity.medium (auditSignals [] [] []) = 0 := by
      simp [countSev, auditSignals, calculateMissingPct, missingStagePct, getSeverity_zero]
    omega

/-- C9 counterexample: two runs whose computed signal sets are
identical (hence pointwise at-least-as-bad), yet the second run's score
is 50 while the first's is 0 — the zero-deals override depends on the
input collections, not only on the signal set, so the claimed
monotonicity fails as stated. -/
theorem C9_counterexample :
    ((runAudit [] [] [] "t").signals.map (fun s => s.severity)
        = (runAudit [] [] [recFull] "t").signals.map (fun s => s.severity))
    ∧ List.Forall₂ (fun s1 s2 => sevRank s1.severity ≤ sevRank s2.severity)
        (runAudit [] [] [] "t").signals (runAudit [] [] [recFull] "t").signals
    ∧ (runAudit [] [] [] "t").overall_health.score = 0
    ∧ (runAudit [] [] [recFull] "t").overall_health.score = 50
    ∧ ¬((runAudit [] [] [recFull] "t").overall_health.score
        ≤ (runAudit [] [] [] "t").overall_health.score) := by
  have hs1 : (runAudit [] [] [] "t").signals = auditSignals [] [] [] := by
    simp only [runAudit]
    exact computeSignals_signalResults _ _ _
  have hs2 : (runAudit [] [] [recFull] "t").signals = auditSignals [] [] [recFull] := by
    simp only [runAudit]
    exact computeSignals_signalResults _ _ _
  have hscore1 : (runAudit [] [] [] "t").overall_health.score = 0 := by
    rw [runAudit_score_eq]
    simp [scoreSpec]
  have hscore2 : (runAudit [] [] [recFull] "t").overall_health.score = 50 := by
    rw [runAudit_score_eq, hs2]
    apply scoreSpec_all_low
    · simp
    · simp [auditSignals]
    · simp [auditSignals, cmp_empty, cmp_recFull, msp_recFull, getSeverity_zero]
    · simp [penaltySum, auditSignals, cmp_empty, cmp_recFull, msp_recFull,
        getSeverity_zero, sevPenalty, critWeight]
      norm_num
  refine ⟨?_, ?_, hscore1, hscore2, ?_⟩
  · rw [hs1, hs2]
    simp [auditSignals, cmp_empty, cmp_recFull, msp_empty, msp_recFull, getSeverity_zero]
  · rw [hs1, hs2]
    simp [auditSignals, cmp_empty, cmp_recFull, msp_empty, msp_recFull,
      getSeverity_zero, List.forall₂_cons, sevRank]
  · rw [hscore1, hscore2]
    norm_num

/-- C9 amended: the score is monotonically non-increasing under
pointwise severity worsening of the computed signal set, provided
additionally that the second run's deals collection is empty whenever
the first's is (the engine always computes exactly the same seven
signals, and the zero-deals override reads the input, not the signal
set). -/
theorem C9_score_monotone_amended (c1 p1 d1 c2 p2 d2 : List Record) (t1 t2 : String)
    (hsev : List.Forall₂ (fun s1 s2 => sevRank s1.severity ≤ sevRank s2.severity)
        (runAudit c1 p1 d1 t1).signals (runAudit c2 p2 d2 t2).signals)
    (hdeals : d1.length = 0 → d2.length = 0) :
    (runAudit c2 p2 d2 t2).overall_health.score
      ≤ (runAudit c1 p1 d1 t1).overall_health.score := by
  have hs1 : (runAudit c1 p1 d1 t1).signals = auditSignals c1 p1 d1 := by
    simp only [runAudit]
    exact computeSignals_signalResults _ _ _
  have hs2 : (runAudit c2 p2 d2 t2).signals = auditSignals c2 p2 d2 := by
    simp only [runAudit]
    exact computeSignals_signalResults _ _ _
  rw [hs1, hs2] at hsev
  rw [runAudit_score_eq, runAudit_score_eq, hs1, hs2]
  apply scoreSpec_mono
  · apply forall₂_penaltySum_mono _ _ hsev
    simp [auditSignals, List.forall₂_cons]
  · exact forall₂_all_high hsev
  · exact hdeals

/-- Witness for the amended C9: an all-clean one-deal run worsened to an
empty-deals run (identical all-low signal set, deals dropped) can only
lose score: 0 ≤ 50. -/
theorem C9_score_monotone_amended_witness :
    (runAudit [] [] [] "t2").overall_health.score
      ≤ (runAudit [] [] [recFull] "t1").overall_health.score :=
  C9_score_monotone_amended [] [] [recFull] [] [] [] "t1" "t2"
    (by
      have hs1 : (runAudit [] [] [recFull] "t1").signals = auditSignals [] [] [recFull] := by
        simp only [runAudit]
        exact computeSignals_signalResults _ _ _
      have hs2 : (runAudit [] [] [] "t2").signals = auditSignals [] [] [] := by
        simp only [runAudit]
        exact computeSignals_signalResults _ _ _
      rw [hs1, hs2]
      simp [auditSignals, cmp_empty, cmp_recFull, msp_empty, msp_recFull,
        getSeverity_zero, List.forall₂_cons, sevRank])
    (fun _ => rfl)

/-- Witness for C10: a one-record-per-collection dataset with every
relevant field present scores exactly 50. -/
theorem C10_score_cap_witness :
    (runAudit [recFull] [recFull] [recFull] "2026-01-01T00:00:00.000Z").overall_health.score
      = 50 :=
  (C10_score_cap [recFull] [recFull] [recFull] "2026-01-01T00:00:00.000Z"
      (by simp)).2
    (by intro r hr; simp at hr; subst hr; constructor <;> decide)
    (by intro r hr; simp at hr; subst hr; constructor <;> decide)
    (by intro r hr; simp at hr; subst hr; refine ⟨?_, ?_, ?_, ?_⟩ <;> decide)

end AuditAgent
